import Mathlib

/-!
Verification of the `AverageInitialization` rule from
`src/mlpack/methods/amf/init_rules/average_init.hpp`.

The numeric domain of the C++ code is IEEE-754 `double`.  We model it by
`Dbl`: exact rationals for finite values, plus `+inf`, `-inf` and `nan`,
with the sign/NaN behaviour of the IEEE operations the code performs
(division by a nonnegative integer, subtraction, addition, square root).
Rounding is not modelled; none of the properties under study depend on it.
The value of the square root on nonnegative finite arguments is abstracted
by a parameter `s : ℚ → ℚ` (its exact value is irrelevant to every
property below: only NaN-ness, equality and additive offsets matter), so
all theorems are quantified over `s`.
-/

namespace AvgInit

/-- Idealized IEEE-754 double: NaN, the two infinities, or an exact finite
value. -/
inductive Dbl where
  | nan : Dbl
  | pinf : Dbl
  | ninf : Dbl
  | fin : ℚ → Dbl
deriving DecidableEq

/-- IEEE addition restricted to the cases the code reaches. -/
def Dbl.add : Dbl → Dbl → Dbl
  | .nan, _ => .nan
  | _, .nan => .nan
  | .pinf, .ninf => .nan
  | .ninf, .pinf => .nan
  | .pinf, _ => .pinf
  | _, .pinf => .pinf
  | .ninf, _ => .ninf
  | _, .ninf => .ninf
  | .fin a, .fin b => .fin (a + b)

/-- IEEE subtraction of a finite value (the `min` statistic is always
finite: it is `DBL_MAX` or a stored element). -/
def Dbl.subFin : Dbl → ℚ → Dbl
  | .nan, _ => .nan
  | .pinf, _ => .pinf
  | .ninf, _ => .ninf
  | .fin a, b => .fin (a - b)

/-- IEEE division by a nonnegative integer (the code divides by the
`size_t` quantities `n * m` and `r`, converted to `double`, hence `+0.0`
when zero): `0/0 = NaN`, `x/0 = ±inf` for finite nonzero `x`,
`±inf / k = ±inf`. -/
def Dbl.divNat : Dbl → ℕ → Dbl
  | .nan, _ => .nan
  | .pinf, _ => .pinf
  | .ninf, _ => .ninf
  | .fin a, k =>
      if k = 0 then
        if a = 0 then .nan else if 0 < a then .pinf else .ninf
      else .fin (a / (k : ℚ))

/-- IEEE square root: NaN on NaN and on negative arguments (finite or
`-inf`), `+inf` on `+inf`; on nonnegative finite arguments the resulting
value is given by the abstract valuation `s`. -/
def Dbl.sqrt (s : ℚ → ℚ) : Dbl → Dbl
  | .nan => .nan
  | .pinf => .pinf
  | .ninf => .nan
  | .fin a => if a < 0 then .nan else .fin (s a)

/-- IEEE `<=`: every comparison involving NaN is false. -/
def Dbl.leb : Dbl → Dbl → Bool
  | .nan, _ => false
  | _, .nan => false
  | .ninf, _ => true
  | .pinf, .pinf => true
  | .pinf, _ => false
  | .fin _, .pinf => true
  | .fin _, .ninf => false
  | .fin a, .fin b => decide (a ≤ b)

/-- IEEE `<`: every comparison involving NaN is false. -/
def Dbl.ltb : Dbl → Dbl → Bool
  | .nan, _ => false
  | _, .nan => false
  | .ninf, .ninf => false
  | .ninf, _ => true
  | .pinf, _ => false
  | .fin _, .pinf => true
  | .fin _, .ninf => false
  | .fin a, .fin b => decide (a < b)

/-- Whether a double is a finite value (neither NaN nor an infinity). -/
def Dbl.isFinite : Dbl → Bool
  | .fin _ => true
  | _ => false

/-- `DBL_MAX`, the largest finite IEEE-754 double, `(2^53 - 1) * 2^971`
(written as an explicit integer literal so that concrete evaluations
reduce). -/
def DBL_MAX : ℚ := 179769313486231570814527423731704356798070567525844996598917476803157260780028538760589558632766878171540458953514382464234321326889464182768467546703537516986049910576551282076245490090389328944075868508455133942304583236903222948165808559332123348274797826204144723168738177180919299881250404026184124858368

/-- The input matrix `V`: its dimensions and the list of its stored
elements in traversal order (`MatType::const_row_col_iterator` visits all
entries of a dense matrix and only the nonzeros of a sparse one). -/
structure SpMat where
  n_rows : ℕ
  n_cols : ℕ
  elems : List ℚ

/-- An `arma::mat`: dimensions plus an entry function. -/
structure Mat where
  n_rows : ℕ
  n_cols : ℕ
  entries : ℕ → ℕ → Dbl

/-- `M.randu(n, m)`: reallocate to `n x m` and fill every entry with a
uniform draw in `[0,1)`; the draws are supplied by the source `u`. -/
def randu (n m : ℕ) (u : ℕ → ℕ → ℚ) : Mat :=
  ⟨n, m, fun i j => .fin (u i j)⟩

/-- `M = M + a`: elementwise addition of the scalar `a`. -/
def Mat.addScalar (M : Mat) (a : Dbl) : Mat :=
  ⟨M.n_rows, M.n_cols, fun i j => (M.entries i j).add a⟩

/-- The statistics loop of `Initialize` (average_init.hpp lines 51-65): a
single traversal of the stored elements accumulating `count`, the running
sum `avgV`, and the minimum `min` initialized to `DBL_MAX`. -/
def initLoop (V : SpMat) : ℕ × ℚ × ℚ :=
  V.elems.foldl
    (fun acc x => (acc.1 + 1, acc.2.1 + x, if x < acc.2.2 then x else acc.2.2))
    (0, 0, DBL_MAX)

/-- The statistics loop of the `W` branch of `InitializeOne`
(average_init.hpp lines 98-112), a textual copy of the loop in
`Initialize`. -/
def initOneLoopW (V : SpMat) : ℕ × ℚ × ℚ :=
  V.elems.foldl
    (fun acc x => (acc.1 + 1, acc.2.1 + x, if x < acc.2.2 then x else acc.2.2))
    (0, 0, DBL_MAX)

/-- The statistics loop of the `H` branch of `InitializeOne`
(average_init.hpp lines 123-137), a textual copy of the loop in
`Initialize`. -/
def initOneLoopH (V : SpMat) : ℕ × ℚ × ℚ :=
  V.elems.foldl
    (fun acc x => (acc.1 + 1, acc.2.1 + x, if x < acc.2.2 then x else acc.2.2))
    (0, 0, DBL_MAX)

/-- The seed computed by `Initialize` (average_init.hpp line 67):
`avgV = sqrt(((avgV / (n * m)) - min) / r)`. -/
def initSeed (s : ℚ → ℚ) (V : SpMat) (r : ℕ) : Dbl :=
  Dbl.sqrt s
    ((((Dbl.fin (initLoop V).2.1).divNat (V.n_rows * V.n_cols)).subFin
        (initLoop V).2.2).divNat r)

/-- The seed computed by the `W` branch of `InitializeOne`
(average_init.hpp line 114). -/
def initOneSeedW (s : ℚ → ℚ) (V : SpMat) (r : ℕ) : Dbl :=
  Dbl.sqrt s
    ((((Dbl.fin (initOneLoopW V).2.1).divNat (V.n_rows * V.n_cols)).subFin
        (initOneLoopW V).2.2).divNat r)

/-- The seed computed by the `H` branch of `InitializeOne`
(average_init.hpp line 139). -/
def initOneSeedH (s : ℚ → ℚ) (V : SpMat) (r : ℕ) : Dbl :=
  Dbl.sqrt s
    ((((Dbl.fin (initOneLoopH V).2.1).divNat (V.n_rows * V.n_cols)).subFin
        (initOneLoopH V).2.2).divNat r)

/-- Embedding of `AverageInitialization::Initialize` (average_init.hpp
lines 43-75).  `uW` and `uH` model the uniform draws consumed by the two
`randu` calls; `W0` and `H0` are the prior contents of the by-reference
output arguments, which `randu` reallocates and overwrites (they are
therefore unused).  `V` is taken by value: the C++ code takes it by
`const` reference and never writes to it. -/
def Initialize (s : ℚ → ℚ) (V : SpMat) (r : ℕ) (uW uH : ℕ → ℕ → ℚ)
    (W0 H0 : Mat) : Mat × Mat :=
  ((randu V.n_rows r uW).addScalar (initSeed s V r),
   (randu r V.n_cols uH).addScalar (initSeed s V r))

/-- Outcome of `InitializeOne`: either an initialized matrix, or the
`Log::Fatal` path (average_init.hpp lines 148-149), which logs the given
message and terminates the host process. -/
inductive InitOneResult where
  | ok : Mat → InitOneResult
  | fatal : String → InitOneResult

/-- Embedding of `AverageInitialization::InitializeOne` (average_init.hpp
lines 88-151).  The statistics are recomputed inside each branch, as in
the source; `u` models the uniform draws of the single `randu` call and
`M0` the prior contents of the by-reference output argument. -/
def InitializeOne (s : ℚ → ℚ) (V : SpMat) (r : ℕ) (whichMatrix : Char)
    (u : ℕ → ℕ → ℚ) (M0 : Mat) : InitOneResult :=
  if whichMatrix = 'W' ∨ whichMatrix = 'w' then
    .ok ((randu V.n_rows r u).addScalar (initOneSeedW s V r))
  else if whichMatrix = 'H' ∨ whichMatrix = 'h' then
    .ok ((randu r V.n_cols u).addScalar (initOneSeedH s V r))
  else
    .fatal ("Specify either 'H' or 'W' when initializing one of W and H matrices!")

/-- Spec-side sum statistic: the plain sum of the stored elements. -/
def specSum (V : SpMat) : ℚ := V.elems.sum

/-- Spec-side minimum statistic: the minimum over the stored elements,
initialized to the maximum representable double value. -/
def specMin (V : SpMat) : ℚ := V.elems.foldl min DBL_MAX

/-- The seed exactly as the spec words it:
`sqrt((sum / (n * m) - min) / r)` with `sum` and `min` the spec-side
statistics. -/
def specSeed (s : ℚ → ℚ) (V : SpMat) (r : ℕ) : Dbl :=
  Dbl.sqrt s
    ((((Dbl.fin (specSum V)).divNat (V.n_rows * V.n_cols)).subFin
        (specMin V)).divNat r)

/-- The argument of the square root as an exact rational, meaningful when
both divisors are nonzero: `(sum / (n * m) - min) / r`. -/
def seedArgQ (V : SpMat) (r : ℕ) : ℚ :=
  (specSum V / ((V.n_rows * V.n_cols : ℕ) : ℚ) - specMin V) / (r : ℚ)

/-- The clamped seed claimed by the spec's testable property:
`sqrt(max(0, (mean - min) / r))` (modelled from the spec; the clamping is
not present in the source). -/
def clampSeed (s : ℚ → ℚ) (V : SpMat) (r : ℕ) : Dbl :=
  Dbl.fin (s (max 0 (seedArgQ V r)))

/-- A concrete prior matrix, used to instantiate the by-reference output
arguments in concrete evaluations. -/
def mat0 : Mat := ⟨0, 0, fun _ _ => .fin 0⟩

/-! ### Helper lemmas -/

lemma if_lt_eq_min (x mn : ℚ) : (if x < mn then x else mn) = min mn x := by
  rcases lt_or_ge x mn with h | h
  · simp [h, min_eq_right h.le]
  · simp [not_lt.2 h, min_eq_left h]

lemma loop_foldl_eq (l : List ℚ) (c : ℕ) (sm mn : ℚ) :
    l.foldl
      (fun acc x => (acc.1 + 1, acc.2.1 + x, if x < acc.2.2 then x else acc.2.2))
      (c, sm, mn)
      = (c + l.length, sm + l.sum, l.foldl min mn) := by
  induction l generalizing c sm mn with
  | nil => simp
  | cons x xs ih =>
      rw [List.foldl_cons, ih, if_lt_eq_min, List.length_cons, List.sum_cons,
        List.foldl_cons]
      simp only [Prod.mk.injEq]
      exact ⟨by omega, by ring, trivial⟩

/-- The single traversal of `Initialize` computes the element count, the
spec-side sum, and the spec-side minimum. -/
lemma initLoop_eq (V : SpMat) :
    initLoop V = (V.elems.length, specSum V, specMin V) := by
  unfold initLoop specSum specMin
  simpa using loop_foldl_eq V.elems 0 0 DBL_MAX

lemma initOneLoopW_eq_initLoop (V : SpMat) : initOneLoopW V = initLoop V := rfl

lemma initOneLoopH_eq_initLoop (V : SpMat) : initOneLoopH V = initLoop V := rfl

/-- The seed of `Initialize` coincides with the spec formula. -/
lemma initSeed_eq_specSeed (s : ℚ → ℚ) (V : SpMat) (r : ℕ) :
    initSeed s V r = specSeed s V r := by
  unfold initSeed specSeed
  rw [initLoop_eq]

lemma initOneSeedW_eq (s : ℚ → ℚ) (V : SpMat) (r : ℕ) :
    initOneSeedW s V r = specSeed s V r := by
  unfold initOneSeedW
  rw [initOneLoopW_eq_initLoop, initLoop_eq]; rfl

lemma initOneSeedH_eq (s : ℚ → ℚ) (V : SpMat) (r : ℕ) :
    initOneSeedH s V r = specSeed s V r := by
  unfold initOneSeedH
  rw [initOneLoopH_eq_initLoop, initLoop_eq]; rfl

/-- When neither divisor is zero, the seed is the square root of the exact
rational `seedArgQ V r`. -/
lemma specSeed_eq_sqrt_seedArgQ (s : ℚ → ℚ) (V : SpMat) (r : ℕ)
    (hnm : V.n_rows * V.n_cols ≠ 0) (hr : r ≠ 0) :
    specSeed s V r = Dbl.sqrt s (.fin (seedArgQ V r)) := by
  unfold specSeed seedArgQ
  simp [Dbl.divNat, Dbl.subFin, hnm, hr]

/-- When neither divisor is zero and the exact argument is negative, the
seed is NaN. -/
lemma specSeed_nan_of_neg (s : ℚ → ℚ) (V : SpMat) (r : ℕ)
    (hnm : V.n_rows * V.n_cols ≠ 0) (hr : r ≠ 0)
    (hneg : seedArgQ V r < 0) :
    specSeed s V r = .nan := by
  rw [specSeed_eq_sqrt_seedArgQ s V r hnm hr]
  simp [Dbl.sqrt, hneg]

/-- When neither divisor is zero and the exact argument is nonnegative, the
seed is the finite value `s (seedArgQ V r)`. -/
lemma specSeed_fin_of_nonneg (s : ℚ → ℚ) (V : SpMat) (r : ℕ)
    (hnm : V.n_rows * V.n_cols ≠ 0) (hr : r ≠ 0)
    (hpos : 0 ≤ seedArgQ V r) :
    specSeed s V r = .fin (s (seedArgQ V r)) := by
  rw [specSeed_eq_sqrt_seedArgQ s V r hnm hr]
  simp [Dbl.sqrt, not_lt.2 hpos]

lemma divNat_zero_not_finite (d : Dbl) : (d.divNat 0).isFinite = false := by
  cases d with
  | nan => rfl
  | pinf => rfl
  | ninf => rfl
  | fin a =>
      simp only [Dbl.divNat, if_pos rfl]
      by_cases h0 : a = 0
      · simp [h0, Dbl.isFinite]
      · by_cases hp : 0 < a
        · simp [h0, hp, Dbl.isFinite]
        · simp [h0, hp, Dbl.isFinite]

lemma sqrt_not_finite (s : ℚ → ℚ) (d : Dbl) (h : d.isFinite = false) :
    (Dbl.sqrt s d).isFinite = false := by
  cases d with
  | nan => rfl
  | pinf => rfl
  | ninf => rfl
  | fin a => simp [Dbl.isFinite] at h

lemma subFin_not_finite (d : Dbl) (b : ℚ) (h : d.isFinite = false) :
    (d.subFin b).isFinite = false := by
  cases d with
  | nan => rfl
  | pinf => rfl
  | ninf => rfl
  | fin a => simp [Dbl.isFinite] at h

lemma divNat_not_finite (d : Dbl) (k : ℕ) (h : d.isFinite = false) :
    (d.divNat k).isFinite = false := by
  cases d with
  | nan => rfl
  | pinf => rfl
  | ninf => rfl
  | fin a => simp [Dbl.isFinite] at h

lemma add_fin_not_finite (u : ℚ) (d : Dbl) (h : d.isFinite = false) :
    ((Dbl.fin u).add d).isFinite = false := by
  cases d with
  | nan => rfl
  | pinf => rfl
  | ninf => rfl
  | fin a => simp [Dbl.isFinite] at h

lemma add_fin_nan (u : ℚ) : (Dbl.fin u).add .nan = .nan := rfl

/-- The seed is never finite when `r = 0`: the final division is by zero
and the square root maps every non-finite class to a non-finite one. -/
lemma specSeed_not_finite_of_r_zero (s : ℚ → ℚ) (V : SpMat) :
    (specSeed s V 0).isFinite = false := by
  unfold specSeed
  exact sqrt_not_finite s _ (divNat_zero_not_finite _)

/-- The seed is never finite when the matrix has a zero dimension (a
matrix with a zero dimension stores no elements, so the sum is `0` and the
mean is the IEEE `0/0 = NaN`). -/
lemma specSeed_not_finite_of_dim_zero (s : ℚ → ℚ) (V : SpMat) (r : ℕ)
    (hnm : V.n_rows * V.n_cols = 0) (he : V.elems = []) :
    (specSeed s V r).isFinite = false := by
  unfold specSeed
  refine sqrt_not_finite s _ (divNat_not_finite _ _ (subFin_not_finite _ _ ?_))
  simp [specSum, he, hnm, Dbl.divNat, Dbl.isFinite]

/-! ### Claims -/

/-- C1: the seed scalar computed by `Initialize` (and by both branches of
`InitializeOne`) equals `sqrt((mean - min) / r)`, where `sum` and `min`
are accumulated in a single traversal over the stored elements of `V`
(`min` initialized to the maximum representable double value) and
`mean = sum / (n * m)` with the full matrix size `n * m` as denominator,
not the count of stored elements. -/
theorem C1_seed_formula (s : ℚ → ℚ) (V : SpMat) (r : ℕ) :
    initSeed s V r = specSeed s V r ∧
    initOneSeedW s V r = specSeed s V r ∧
    initOneSeedH s V r = specSeed s V r :=
  ⟨initSeed_eq_specSeed s V r, initOneSeedW_eq s V r, initOneSeedH_eq s V r⟩

unseal Rat.add Rat.sub Rat.mul Rat.inv in
/-- C2 counterexample: for the sparse 3x3 matrix with single stored
element `5` and `r = 1`, the claimed seed `sqrt(max(0, (mean - min)/r))`
is `0`, but the entry `(0,0)` of the returned `W` is NaN, which does not
lie in `[seed, seed + 1)` (`leb` is false on NaN), so the claim as stated
fails. -/
theorem C2_counterexample :
    clampSeed id ⟨3, 3, [5]⟩ 1 = Dbl.fin 0 ∧
    (Initialize id ⟨3, 3, [5]⟩ 1 (fun _ _ => 1/2) (fun _ _ => 1/2)
        mat0 mat0).1.entries 0 0 = Dbl.nan ∧
    Dbl.leb (clampSeed id ⟨3, 3, [5]⟩ 1)
      ((Initialize id ⟨3, 3, [5]⟩ 1 (fun _ _ => 1/2) (fun _ _ => 1/2)
          mat0 mat0).1.entries 0 0) = false := by decide

/-- C2 (amended): when additionally `(mean - min) / r` is nonnegative,
`Initialize` returns `W` of shape `n x r` and `H` of shape `r x m` and
every entry of both lies in `[seed, seed + 1)` with
`seed = sqrt((mean - min) / r)` (no clamping occurs in the code, so the
nonnegativity is a hypothesis rather than enforced by `max`). -/
theorem C2_entries_in_seed_interval (s : ℚ → ℚ) (V : SpMat) (r : ℕ)
    (uW uH : ℕ → ℕ → ℚ) (W0 H0 : Mat)
    (hn : 1 ≤ V.n_rows) (hm : 1 ≤ V.n_cols) (hr : 1 ≤ r)
    (hnng : 0 ≤ seedArgQ V r)
    (huW : ∀ i j, 0 ≤ uW i j ∧ uW i j < 1)
    (huH : ∀ i j, 0 ≤ uH i j ∧ uH i j < 1) :
    (Initialize s V r uW uH W0 H0).1.n_rows = V.n_rows ∧
    (Initialize s V r uW uH W0 H0).1.n_cols = r ∧
    (Initialize s V r uW uH W0 H0).2.n_rows = r ∧
    (Initialize s V r uW uH W0 H0).2.n_cols = V.n_cols ∧
    (∀ i j,
      Dbl.leb (.fin (s (seedArgQ V r)))
          ((Initialize s V r uW uH W0 H0).1.entries i j) = true ∧
      Dbl.ltb ((Initialize s V r uW uH W0 H0).1.entries i j)
          (.fin (s (seedArgQ V r) + 1)) = true) ∧
    (∀ i j,
      Dbl.leb (.fin (s (seedArgQ V r)))
          ((Initialize s V r uW uH W0 H0).2.entries i j) = true ∧
      Dbl.ltb ((Initialize s V r uW uH W0 H0).2.entries i j)
          (.fin (s (seedArgQ V r) + 1)) = true) := by
  have hnm : V.n_rows * V.n_cols ≠ 0 := Nat.mul_ne_zero (by omega) (by omega)
  have hseed : initSeed s V r = .fin (s (seedArgQ V r)) := by
    rw [initSeed_eq_specSeed]
    exact specSeed_fin_of_nonneg s V r hnm (by omega) hnng
  refine ⟨rfl, rfl, rfl, rfl, fun i j => ?_, fun i j => ?_⟩
  · obtain ⟨h0, h1⟩ := huW i j
    constructor
    · simp only [Initialize, randu, Mat.addScalar, hseed, Dbl.add, Dbl.leb,
        decide_eq_true_eq]
      linarith
    · simp only [Initialize, randu, Mat.addScalar, hseed, Dbl.add, Dbl.ltb,
        decide_eq_true_eq]
      linarith
  · obtain ⟨h0, h1⟩ := huH i j
    constructor
    · simp only [Initialize, randu, Mat.addScalar, hseed, Dbl.add, Dbl.leb,
        decide_eq_true_eq]
      linarith
    · simp only [Initialize, randu, Mat.addScalar, hseed, Dbl.add, Dbl.ltb,
        decide_eq_true_eq]
      linarith

unseal Rat.add Rat.sub Rat.mul Rat.inv in
/-- Witness for C2 (amended) at `V = [[0,2],[4,6]]`, `r = 2`, uniform
draws `1/2`. -/
theorem C2_entries_in_seed_interval_witness :
    Dbl.leb (.fin (id (seedArgQ ⟨2, 2, [0, 2, 4, 6]⟩ 2)))
        ((Initialize id ⟨2, 2, [0, 2, 4, 6]⟩ 2 (fun _ _ => 1/2) (fun _ _ => 1/2)
            mat0 mat0).1.entries 0 0) = true ∧
    Dbl.ltb ((Initialize id ⟨2, 2, [0, 2, 4, 6]⟩ 2 (fun _ _ => 1/2) (fun _ _ => 1/2)
            mat0 mat0).1.entries 0 0)
        (.fin (id (seedArgQ ⟨2, 2, [0, 2, 4, 6]⟩ 2) + 1)) = true :=
  (C2_entries_in_seed_interval id ⟨2, 2, [0, 2, 4, 6]⟩ 2
      (fun _ _ => 1/2) (fun _ _ => 1/2) mat0 mat0
      (by decide) (by decide) (by decide) (by decide)
      (fun _ _ => by norm_num) (fun _ _ => by norm_num)).2.2.2.2.1 0 0

unseal Rat.add Rat.sub Rat.mul Rat.inv in
/-- C3 counterexample: on the spec's own scenario (sparse 3x3 matrix with
single stored value `5`, `r = 1`) the argument `(mean - min)/r` is
negative, yet the code does not clamp: the seed is NaN (unequal to the
claimed clamped seed `0`) and the output entries are NaN-contaminated. -/
theorem C3_counterexample :
    seedArgQ ⟨3, 3, [5]⟩ 1 < 0 ∧
    initSeed id ⟨3, 3, [5]⟩ 1 = Dbl.nan ∧
    initSeed id ⟨3, 3, [5]⟩ 1 ≠ clampSeed id ⟨3, 3, [5]⟩ 1 ∧
    (Initialize id ⟨3, 3, [5]⟩ 1 (fun _ _ => 0) (fun _ _ => 0)
        mat0 mat0).1.entries 0 0 = Dbl.nan ∧
    (Initialize id ⟨3, 3, [5]⟩ 1 (fun _ _ => 0) (fun _ _ => 0)
        mat0 mat0).2.entries 0 0 = Dbl.nan := by decide

/-- C3 (amended): when `(mean - min) / r` evaluates negative (with
`n, m, r >= 1`), the initializer does not clamp and emits no diagnostic:
the seed is NaN and every entry of the returned `W` and `H` is NaN. -/
theorem C3_negative_argument_gives_nan (s : ℚ → ℚ) (V : SpMat) (r : ℕ)
    (uW uH : ℕ → ℕ → ℚ) (W0 H0 : Mat)
    (hn : 1 ≤ V.n_rows) (hm : 1 ≤ V.n_cols) (hr : 1 ≤ r)
    (hneg : seedArgQ V r < 0) :
    initSeed s V r = .nan ∧
    (∀ i j, (Initialize s V r uW uH W0 H0).1.entries i j = .nan) ∧
    (∀ i j, (Initialize s V r uW uH W0 H0).2.entries i j = .nan) := by
  have hnm : V.n_rows * V.n_cols ≠ 0 := Nat.mul_ne_zero (by omega) (by omega)
  have hseed : initSeed s V r = .nan := by
    rw [initSeed_eq_specSeed]
    exact specSeed_nan_of_neg s V r hnm (by omega) hneg
  refine ⟨hseed, fun i j => ?_, fun i j => ?_⟩ <;>
    · show (Dbl.fin _).add _ = _
      rw [hseed]
      rfl

unseal Rat.add Rat.sub Rat.mul Rat.inv in
/-- Witness for C3 (amended) at the spec's scenario. -/
theorem C3_negative_argument_gives_nan_witness :
    initSeed id ⟨3, 3, [5]⟩ 1 = Dbl.nan ∧
    (Initialize id ⟨3, 3, [5]⟩ 1 (fun _ _ => 1/3) (fun _ _ => 1/3)
        mat0 mat0).1.entries 1 1 = Dbl.nan :=
  ⟨(C3_negative_argument_gives_nan id ⟨3, 3, [5]⟩ 1
      (fun _ _ => 1/3) (fun _ _ => 1/3) mat0 mat0
      (by decide) (by decide) (by decide) (by decide)).1,
   (C3_negative_argument_gives_nan id ⟨3, 3, [5]⟩ 1
      (fun _ _ => 1/3) (fun _ _ => 1/3) mat0 mat0
      (by decide) (by decide) (by decide) (by decide)).2.1 1 1⟩

unseal Rat.add Rat.sub Rat.mul Rat.inv in
/-- C4 counterexample: for `V` with `n = 0`, `m = 3` and `r = 2`, no error
is signalled and the returned `H` is a `2 x 3` matrix every entry of which
is NaN, refuting the claim that NaN-filled output is never returned. -/
theorem C4_counterexample :
    (Initialize id ⟨0, 3, ([] : List ℚ)⟩ 2 (fun _ _ => 0) (fun _ _ => 0)
        mat0 mat0).2.n_rows = 2 ∧
    (Initialize id ⟨0, 3, ([] : List ℚ)⟩ 2 (fun _ _ => 0) (fun _ _ => 0)
        mat0 mat0).2.n_cols = 3 ∧
    (Initialize id ⟨0, 3, ([] : List ℚ)⟩ 2 (fun _ _ => 0) (fun _ _ => 0)
        mat0 mat0).2.entries 0 0 = Dbl.nan := by decide

/-- C4 (amended): the code performs no input validation: when `V` has a
zero dimension (hence stores no elements) or `r = 0`, the division by
zero goes through IEEE arithmetic, the seed is non-finite (NaN or an
infinity), and every entry of the returned matrices is non-finite; no
error is signalled (the embedding of `Initialize` has no error outcome at
all, mirroring the `void` function). -/
theorem C4_degenerate_inputs_nonfinite (s : ℚ → ℚ) (V : SpMat) (r : ℕ)
    (uW uH : ℕ → ℕ → ℚ) (W0 H0 : Mat)
    (h : (V.n_rows * V.n_cols = 0 ∧ V.elems = []) ∨ r = 0) :
    (initSeed s V r).isFinite = false ∧
    (∀ i j, ((Initialize s V r uW uH W0 H0).1.entries i j).isFinite = false) ∧
    (∀ i j, ((Initialize s V r uW uH W0 H0).2.entries i j).isFinite = false) := by
  have hseed : (initSeed s V r).isFinite = false := by
    rw [initSeed_eq_specSeed]
    rcases h with ⟨hnm, he⟩ | hr0
    · exact specSeed_not_finite_of_dim_zero s V r hnm he
    · subst hr0; exact specSeed_not_finite_of_r_zero s V
  exact ⟨hseed, fun i j => add_fin_not_finite _ _ hseed,
    fun i j => add_fin_not_finite _ _ hseed⟩

unseal Rat.add Rat.sub Rat.mul Rat.inv in
/-- Witness for C4 (amended) at a zero-dimension `V` and at `r = 0`. -/
theorem C4_degenerate_inputs_nonfinite_witness :
    (initSeed id ⟨0, 3, ([] : List ℚ)⟩ 2).isFinite = false ∧
    ((Initialize id ⟨2, 2, [1, 2, 3, 4]⟩ 0 (fun _ _ => 0) (fun _ _ => 0)
        mat0 mat0).2.entries 0 0).isFinite = false :=
  ⟨(C4_degenerate_inputs_nonfinite id ⟨0, 3, []⟩ 2
      (fun _ _ => 0) (fun _ _ => 0) mat0 mat0 (Or.inl ⟨rfl, rfl⟩)).1,
   (C4_degenerate_inputs_nonfinite id ⟨2, 2, [1, 2, 3, 4]⟩ 0
      (fun _ _ => 0) (fun _ _ => 0) mat0 mat0 (Or.inr rfl)).2.2 0 0⟩

/-- C5 counterexample: for `which = 'X'` the call reaches the
`Log::Fatal` path (which terminates the host process) instead of
signalling a recoverable error, refuting the claim. -/
theorem C5_counterexample :
    InitializeOne id ⟨2, 2, [1]⟩ 1 'X' (fun _ _ => 0) mat0 =
      .fatal ("Specify either 'H' or 'W' when initializing one of W and H matrices!") := rfl

/-- C5 (amended): for every value of `which` other than `'W'`, `'w'`,
`'H'`, `'h'`, the call reaches `Log::Fatal` with the message below, which
terminates the host process; no matrix is returned. -/
theorem C5_invalid_which_fatal (s : ℚ → ℚ) (V : SpMat) (r : ℕ) (c : Char)
    (u : ℕ → ℕ → ℚ) (M0 : Mat)
    (hW : c ≠ 'W') (hw : c ≠ 'w') (hH : c ≠ 'H') (hh : c ≠ 'h') :
    InitializeOne s V r c u M0 =
      .fatal ("Specify either 'H' or 'W' when initializing one of W and H matrices!") := by
  unfold InitializeOne
  rw [if_neg (not_or.mpr ⟨hW, hw⟩), if_neg (not_or.mpr ⟨hH, hh⟩)]

/-- Witness for C5 (amended) at `which = 'Z'`. -/
theorem C5_invalid_which_fatal_witness :
    InitializeOne id ⟨2, 2, [1]⟩ 1 'Z' (fun _ _ => 0) mat0 =
      .fatal ("Specify either 'H' or 'W' when initializing one of W and H matrices!") :=
  C5_invalid_which_fatal id ⟨2, 2, [1]⟩ 1 'Z' (fun _ _ => 0) mat0
    (by decide) (by decide) (by decide) (by decide)

/-- C6: with the same random source for the `W` draws,
`InitializeOne(V, r, 'W')` returns exactly the `W` half of
`Initialize(V, r)` (in particular the same `n x r` shape and the same
seed value), the statistics being recomputed independently inside
`InitializeOne` (its own textual copy of the loop). -/
theorem C6_initializeOne_W_matches_Initialize (s : ℚ → ℚ) (V : SpMat)
    (r : ℕ) (uW uH : ℕ → ℕ → ℚ) (W0 H0 M0 : Mat) :
    InitializeOne s V r 'W' uW M0 = .ok (Initialize s V r uW uH W0 H0).1 ∧
    initOneSeedW s V r = initSeed s V r := ⟨rfl, rfl⟩

/-- C7: `InitializeOne` treats `'w'` exactly as `'W'` and `'h'` exactly
as `'H'`: with the same random source the results coincide. -/
theorem C7_which_case_insensitive (s : ℚ → ℚ) (V : SpMat) (r : ℕ)
    (u : ℕ → ℕ → ℚ) (M0 : Mat) :
    InitializeOne s V r 'w' u M0 = InitializeOne s V r 'W' u M0 ∧
    InitializeOne s V r 'h' u M0 = InitializeOne s V r 'H' u M0 := ⟨rfl, rfl⟩

/-- C8: the seed is a deterministic function of `V` and `r` alone (the
stateless `initSeed s V r`): every entry of the output of any call is the
corresponding uniform draw plus that same value, whatever the random
source and the prior contents of the output arguments, and both branches
of `InitializeOne` compute that same value. -/
theorem C8_seed_deterministic (s : ℚ → ℚ) (V : SpMat) (r : ℕ) :
    (∀ uW uH W0 H0 i j,
      (Initialize s V r uW uH W0 H0).1.entries i j
        = (Dbl.fin (uW i j)).add (initSeed s V r)) ∧
    (∀ uW uH W0 H0 i j,
      (Initialize s V r uW uH W0 H0).2.entries i j
        = (Dbl.fin (uH i j)).add (initSeed s V r)) ∧
    initOneSeedW s V r = initSeed s V r ∧
    initOneSeedH s V r = initSeed s V r :=
  ⟨fun _ _ _ _ _ _ => rfl, fun _ _ _ _ _ _ => rfl, rfl, rfl⟩

/-- C9: the outputs of `Initialize` and `InitializeOne` do not depend on
the prior contents of the by-reference output arguments (which `randu`
overwrites), and every entry is fully determined by the draw and the
seed; `V` itself is taken by `const` reference and is never written
(in the embedding it is consumed purely). -/
theorem C9_no_dependence_on_prior_outputs (s : ℚ → ℚ) (V : SpMat) (r : ℕ)
    (uW uH : ℕ → ℕ → ℚ) (W0 H0 W1 H1 : Mat) :
    Initialize s V r uW uH W0 H0 = Initialize s V r uW uH W1 H1 ∧
    (∀ c u M0 M1, InitializeOne s V r c u M0 = InitializeOne s V r c u M1) ∧
    (∀ i j, (Initialize s V r uW uH W0 H0).1.entries i j
        = (Dbl.fin (uW i j)).add (initSeed s V r)) ∧
    (∀ i j, (Initialize s V r uW uH W0 H0).2.entries i j
        = (Dbl.fin (uH i j)).add (initSeed s V r)) :=
  ⟨rfl, fun _ _ _ _ => rfl, fun _ _ => rfl, fun _ _ => rfl⟩

/-- C10: for a sparse `V` with `n, m >= 1` but zero stored elements, the
traversal visits nothing, `min` stays `DBL_MAX`, the seed is the square
root of the negative `(0 - DBL_MAX) / r`, i.e. NaN, and every entry of
the returned `W` and `H` is NaN; no error or warning is signalled (the
embedding has no error outcome, mirroring the `void` function). -/
theorem C10_empty_sparse_gives_nan (s : ℚ → ℚ) (V : SpMat) (r : ℕ)
    (uW uH : ℕ → ℕ → ℚ) (W0 H0 : Mat)
    (hn : 1 ≤ V.n_rows) (hm : 1 ≤ V.n_cols) (hr : 1 ≤ r)
    (he : V.elems = []) :
    (initLoop V).2.2 = DBL_MAX ∧
    initSeed s V r = .nan ∧
    (∀ i j, (Initialize s V r uW uH W0 H0).1.entries i j = .nan) ∧
    (∀ i j, (Initialize s V r uW uH W0 H0).2.entries i j = .nan) := by
  have hmin : (initLoop V).2.2 = DBL_MAX := by
    rw [initLoop_eq]
    simp [specMin, he]
  have hneg : seedArgQ V r < 0 := by
    unfold seedArgQ specSum specMin
    rw [he]
    simp only [List.sum_nil, List.foldl_nil]
    have hdm : (0 : ℚ) < DBL_MAX := by norm_num [DBL_MAX]
    have hrq : (0 : ℚ) < (r : ℚ) := by
      exact_mod_cast (show 0 < r by omega)
    apply div_neg_of_neg_of_pos _ hrq
    rw [zero_div]
    linarith
  have hseed : initSeed s V r = .nan := by
    rw [initSeed_eq_specSeed]
    exact specSeed_nan_of_neg s V r (Nat.mul_ne_zero (by omega) (by omega))
      (by omega) hneg
  refine ⟨hmin, hseed, fun i j => ?_, fun i j => ?_⟩ <;>
    · show (Dbl.fin _).add _ = _
      rw [hseed]
      rfl

/-- Witness for C10 at an empty sparse 3x3 matrix with `r = 1`. -/
theorem C10_empty_sparse_gives_nan_witness :
    (initLoop ⟨3, 3, ([] : List ℚ)⟩).2.2 = DBL_MAX ∧
    initSeed id ⟨3, 3, ([] : List ℚ)⟩ 1 = Dbl.nan ∧
    (Initialize id ⟨3, 3, ([] : List ℚ)⟩ 1 (fun _ _ => 0) (fun _ _ => 0)
        mat0 mat0).1.entries 0 0 = Dbl.nan :=
  ⟨(C10_empty_sparse_gives_nan id ⟨3, 3, []⟩ 1 (fun _ _ => 0) (fun _ _ => 0)
      mat0 mat0 (by decide) (by decide) (by decide) rfl).1,
   (C10_empty_sparse_gives_nan id ⟨3, 3, []⟩ 1 (fun _ _ => 0) (fun _ _ => 0)
      mat0 mat0 (by decide) (by decide) (by decide) rfl).2.1,
   (C10_empty_sparse_gives_nan id ⟨3, 3, []⟩ 1 (fun _ _ => 0) (fun _ _ => 0)
      mat0 mat0 (by decide) (by decide) (by decide) rfl).2.2.1 0 0⟩

end AvgInit
